import Mathlib

/-!
Verification of the Dynx reactive-cell library (src/dynx.js, src/DynxTransform.js).

The JavaScript source is shallowly embedded as a state-passing interpreter:
each Dynx instance becomes a `Cell` record in a global `St` state, the
mutually recursive methods (`update`, the type/value/exp setters, the
queue-based `CALL_LISTENERS` dispatcher) become a fuel-indexed interpreter
`exec`, and the closures that the library manipulates (expressions, filters,
listeners, the obsolete-flagged `updateHandle` tokens) are deep-embedded as
small inductive types covering the shapes the claims exercise.
-/

namespace Dynx

/-- Cell identifiers: indices into the global cell store. -/
abbrev CellId := Nat

/-- `DynxType` enum from src/dynx.js lines 9-28.  The numeric values 0..3
give the ordering used by `Math.max` for INHERIT calculations. -/
inductive DynxType where
  | static
  | dynamic
  | invalid
  | inherit
deriving DecidableEq

/-- The numeric value of each enum member (STATIC:0, DYNAMIC:1, INVALID:2, INHERIT:3). -/
def DynxType.rank : DynxType → Nat
  | .static => 0
  | .dynamic => 1
  | .invalid => 2
  | .inherit => 3

/-- `Math.max` on the numeric enum values. -/
def typeMax (a b : DynxType) : DynxType :=
  if a.rank < b.rank then b else a

/-- JavaScript values, restricted to the shapes the claims need. -/
inductive Val where
  | undef
  | int (n : Int)
  | bool (b : Bool)
deriving DecidableEq

/-- JavaScript truthiness for the embedded values. -/
def Val.truthy : Val → Bool
  | .undef => false
  | .int n => n != 0
  | .bool b => b

/-- Deep-embedded condition predicates for conditional combinators
(src/DynxTransform.js): the truthy test `x => Boolean(x)` and its negation. -/
inductive Cond where
  | truthyC
  | notTruthyC
deriving DecidableEq

def Cond.eval : Cond → Val → Bool
  | .truthyC, v => v.truthy
  | .notTruthyC, v => !v.truthy

/-- Deep-embedded filter functions: integer arithmetic filters and a filter
that throws, covering the filter shapes the claims use. -/
inductive Filter where
  | addF (n : Int)
  | mulF (n : Int)
  | throwF
deriving DecidableEq

/-- Errors: the frozen-mutation error thrown on STATIC cells, a user
exception thrown by an expression or filter, and fuel exhaustion (a model
artifact marking non-termination of the bounded interpreter). -/
inductive Err where
  | frozen
  | throwErr
  | fuel
deriving DecidableEq

/-- Applying one deep-embedded filter to a value. -/
def applyFilter : Filter → Val → Except Err Val
  | .addF n, .int m => .ok (.int (m + n))
  | .addF _, _ => .ok .undef
  | .mulF n, .int m => .ok (.int (m * n))
  | .mulF _, _ => .ok .undef
  | .throwF, _ => .error .throwErr

/-- Threading a value through the filter list in attach order
(src/dynx.js lines 192-194). -/
def applyFiltersE : List Filter → Val → Except Err Val
  | [], v => .ok v
  | fl :: rest, v =>
    match applyFilter fl v with
    | .error e => .error e
    | .ok v => applyFiltersE rest v

/-- Deep-embedded expressions.  `readC` is `someDynx.value` (triggering
dependency subscription), `iteE` is a lazy conditional (only the taken
branch's reads happen), `throwE` throws, and `condE self` is the conditional
combinator's expression closure from src/DynxTransform.js lines 74-84. -/
inductive Exp where
  | lit (v : Val)
  | readC (c : CellId)
  | iteE (c t e : Exp)
  | throwE
  | condE (self : CellId)
deriving DecidableEq

/-- Listener closures: `handle c g` is the `updateHandle` closure
`() => c.update()` created by the `g`-th `REFRESH_HANDLE` call on cell `c`
(the generation number models the `obsolete` flag: a handle is obsolete iff
its generation is no longer the cell's current one); `probe i` is an
external listener that records `i` in the global log when invoked. -/
inductive Listener where
  | handle (c : CellId) (gen : Nat)
  | probe (i : Nat)
deriving DecidableEq

/-- The `_ifThens`/`_elseThen` data of a conditional combinator cell.
`elseThen` is the mutable property `this._elseThen`; `elseClosure` is the
`_elseThen` closure variable captured by `createBasicCond` (never reassigned
by `cond.else`, which only writes the property — the aliasing distinction
the recreation path depends on).  `ifThens` needs no such split because the
closure and property alias one array that is only ever pushed to. -/
structure CondData where
  parent : CellId
  ifThens : List (Cond × Val)
  elseThen : Val
  elseClosure : Val
deriving DecidableEq

/-- One Dynx instance: the `VALUE`/`TYPE`/`EXP` symbols, the listener-group
properties, the filter list, the `updateHandle` generation, the transient
`pendingType` used by INHERIT recomputation, and combinator data.
Empty lists model absent (deleted) group properties. -/
structure Cell where
  value : Val := .undef
  ty : DynxType := .dynamic
  exp : Option Exp := none
  filters : List Filter := []
  preupdates : List Listener := []
  updates : List Listener := []
  postupdates : List Listener := []
  typeChanges : List Listener := []
  handleGen : Nat := 0
  pendingType : DynxType := .static
  condData : Option CondData := none
deriving DecidableEq

instance : Inhabited Cell := ⟨{}⟩

/-- Names for the two listener groups dispatched through `CALL_LISTENERS`
(`updates` and `typeChanges`), each with its own process-wide queue and
in-progress flag. -/
inductive Group where
  | upd
  | tc
deriving DecidableEq

/-- Global state: the cell store, the evaluation-context `childStack`
(head = top; `none` is the immune marker), the per-group dispatch queues and
in-progress flags, the log of probe-listener firings, and the count of
`console.error` advisory warnings. -/
structure St where
  cells : List Cell
  childStack : List (Option CellId) := []
  updQueue : List (CellId × Listener) := []
  updInProgress : Bool := false
  tcQueue : List (CellId × Listener) := []
  tcInProgress : Bool := false
  log : List Nat := []
  warnings : Nat := 0
deriving DecidableEq

def getCell (s : St) (c : CellId) : Cell := s.cells.getD c {}

def setCell (s : St) (c : CellId) (cell : Cell) : St :=
  { s with cells := s.cells.set c cell }

def groupList (cell : Cell) : Group → List Listener
  | .upd => cell.updates
  | .tc => cell.typeChanges

def setGroup (cell : Cell) : Group → List Listener → Cell
  | .upd, ls => { cell with updates := ls }
  | .tc, ls => { cell with typeChanges := ls }

def queueOf (s : St) : Group → List (CellId × Listener)
  | .upd => s.updQueue
  | .tc => s.tcQueue

def setQueueOf (s : St) : Group → List (CellId × Listener) → St
  | .upd, q => { s with updQueue := q }
  | .tc, q => { s with tcQueue := q }

def inProgressOf (s : St) : Group → Bool
  | .upd => s.updInProgress
  | .tc => s.tcInProgress

def setInProgressOf (s : St) : Group → Bool → St
  | .upd, b => { s with updInProgress := b }
  | .tc, b => { s with tcInProgress := b }

/-- A listener is obsolete iff it is an `updateHandle` whose generation has
been superseded by a later `REFRESH_HANDLE` on its cell. -/
def isObsolete (s : St) : Listener → Bool
  | .handle c g => g != (getCell s c).handleGen
  | .probe _ => false

/-- `ADD_LiSTENER`'s STATIC check (src/dynx.js lines 304-305):
`console.error` warns but execution continues. -/
def warnIfStatic (c : CellId) (s : St) : St :=
  if (getCell s c).ty = .static then { s with warnings := s.warnings + 1 } else s

/-- `onUpdateSub` (src/dynx.js lines 355-357): `ADD_LiSTENER('updates', ...)`. -/
def onUpdateSub (c : CellId) (l : Listener) (first : Bool) (s : St) : St :=
  let s := warnIfStatic c s
  let cell := getCell s c
  setCell s c { cell with updates := if first then l :: cell.updates else cell.updates ++ [l] }

/-- `onPreUpdateSub` (src/dynx.js lines 372-374). -/
def onPreUpdateSub (c : CellId) (l : Listener) (first : Bool) (s : St) : St :=
  let s := warnIfStatic c s
  let cell := getCell s c
  setCell s c { cell with preupdates := if first then l :: cell.preupdates else cell.preupdates ++ [l] }

/-- `onPostUpdateSub` (src/dynx.js lines 389-391). -/
def onPostUpdateSub (c : CellId) (l : Listener) (first : Bool) (s : St) : St :=
  let s := warnIfStatic c s
  let cell := getCell s c
  setCell s c { cell with postupdates := if first then l :: cell.postupdates else cell.postupdates ++ [l] }

/-- `onTypeChangeSub` (src/dynx.js lines 406-408). -/
def onTypeChangeSub (c : CellId) (l : Listener) (first : Bool) (s : St) : St :=
  let s := warnIfStatic c s
  let cell := getCell s c
  setCell s c { cell with typeChanges := if first then l :: cell.typeChanges else cell.typeChanges ++ [l] }

/-- The INHERIT accounting of the `value` getter (src/dynx.js lines
110-112): if the top cell `t` is INHERIT, raise its pending type by the
read cell's type. -/
def pendingRaise (t c : CellId) (s : St) : St :=
  if (getCell s t).ty = .inherit then
    setCell s t { getCell s t with pendingType := typeMax (getCell s t).pendingType (getCell s c).ty }
  else s

/-- The subscription side effect of the `value` getter (src/dynx.js lines
104-117): when read during another cell's evaluation, raise the top cell's
pending type (if it is INHERIT) and register the top cell's current
`updateHandle` as an update listener (unless the read cell is STATIC). -/
def subscribeRead (c : CellId) (s : St) : St :=
  match s.childStack with
  | [] => s
  | top? :: _ =>
    match top? with
    | none => s
    | some t =>
      if t = c then s
      else
        let s := pendingRaise t c s
        if (getCell s c).ty ≠ .static then
          onUpdateSub c (.handle t (getCell s t).handleGen) false s
        else s

/-- The `value` getter (src/dynx.js lines 104-120): perform the subscription
side effect, then return the stored `VALUE` unconditionally. -/
def readValue (c : CellId) (s : St) : Val × St :=
  let s := subscribeRead c s
  ((getCell s c).value, s)

/-- Evaluating a deep-embedded expression.  Reads go through `readValue` and
therefore mutate the state (subscriptions); `condE` is the combinator
expression of src/DynxTransform.js lines 74-84 (read the parent, return the
first matching then, else the `_elseThen` property). -/
def evalExp : Exp → St → St × Except Err Val
  | .lit v, s => (s, .ok v)
  | .readC c, s =>
    let (v, s) := readValue c s
    (s, .ok v)
  | .iteE cnd t e, s =>
    match evalExp cnd s with
    | (s, .error err) => (s, .error err)
    | (s, .ok v) => if v.truthy then evalExp t s else evalExp e s
  | .throwE, s => (s, .error .throwErr)
  | .condE self, s =>
    match (getCell s self).condData with
    | none => (s, .ok .undef)
    | some cd =>
      let (v, s) := readValue cd.parent s
      match cd.ifThens.find? (fun p => p.1.eval v) with
      | some p => (s, .ok p.2)
      | none => (s, .ok cd.elseThen)

/-- The evaluation section of `update` (src/dynx.js lines 182-197): refresh
the update handle (superseding the old generation), push `this` on the child
stack, evaluate the expression (if any), thread the result through the
filters, pop.  A thrown exception unwinds without popping the stack, exactly
as in the source (there is no try/finally). -/
def evalPhase (c : CellId) (s : St) : St × Except Err Val :=
  let cell := getCell s c
  let s := setCell s c { cell with handleGen := cell.handleGen + 1 }
  let s := { s with childStack := some c :: s.childStack }
  match (match cell.exp with
         | some e => evalExp e s
         | none => (s, .ok cell.value)) with
  | (s, .error e) => (s, .error e)
  | (s, .ok v) =>
    match applyFiltersE (getCell s c).filters v with
    | .error e => (s, .error e)
    | .ok v => ({ s with childStack := s.childStack.tail }, .ok v)

/-- The operations of the mutually recursive method cluster, deep-embedded
so the whole cluster is one fuel-indexed interpreter. -/
inductive Op where
  | doUpdate (c : CellId) (force : Bool)
  | doDirect (c : CellId) (ls : List Listener)
  | doInvoke (c : CellId) (l : Listener)
  | doCall (c : CellId) (g : Group)
  | doDrive (g : Group)
  | doSetType (c : CellId) (t : DynxType)
  | doSetValue (c : CellId) (v : Val)
  | doSetExp (c : CellId) (e : Exp)
deriving DecidableEq

/-- The interpreter for the mutually recursive methods of src/dynx.js:

* `doUpdate`   — `Dynx.update` (lines 167-226);
* `doDirect`   — the direct pre/post-update listener loops (lines 169-171, 214-216);
* `doInvoke`   — invoking one listener closure;
* `doCall`     — `Dynx[CALL_LISTENERS]` (lines 233-267): prune obsolete
  entries, enqueue the rest, and drive the queue unless a drive is already
  in progress for that group name;
* `doDrive`    — the `while(listener = shift())` driver loop (lines 260-263);
* `doSetType`  — the `type` setter (lines 87-98);
* `doSetValue` — the `value` setter (lines 126-137);
* `doSetExp`   — the `exp` setter (lines 151-161).

Fuel bounds the recursion depth; exhaustion returns `Err.fuel`.  Exceptions
propagate as `some err` alongside the state reached so far (JavaScript
exceptions do not roll back heap effects). -/
def exec : Nat → Op → St → St × Option Err
  | 0, _, s => (s, some .fuel)
  | f + 1, op, s =>
    match op with
    | .doUpdate c force =>
      match exec f (.doDirect c (getCell s c).preupdates) s with
      | (s, some e) => (s, some e)
      | (s, none) =>
        let cell := getCell s c
        let s := if cell.ty = .inherit then setCell s c { cell with pendingType := .static } else s
        match (if cell.exp.isSome || !cell.filters.isEmpty
               then evalPhase c s
               else (s, .ok cell.value)) with
        | (s, .error e) => (s, some e)
        | (s, .ok v) =>
          match (if (getCell s c).ty = .inherit
                 then exec f (.doSetType c (getCell s c).pendingType) s
                 else (s, none)) with
          | (s, some e) => (s, some e)
          | (s, none) =>
            match (if v ≠ (getCell s c).value ∨ force = true then
                     let s := setCell s c { getCell s c with value := v }
                     exec f (.doCall c .upd) s
                   else (s, none)) with
            | (s, some e) => (s, some e)
            | (s, none) =>
              match exec f (.doDirect c (getCell s c).postupdates) s with
              | (s, some e) => (s, some e)
              | (s, none) =>
                let s := if (getCell s c).ty = .static then
                           setCell s c
                             { getCell s c with
                               preupdates := [], exp := none, filters := [],
                               updates := [], postupdates := [] }
                         else s
                (s, none)
    | .doDirect c ls =>
      match ls with
      | [] => (s, none)
      | l :: rest =>
        match exec f (.doInvoke c l) s with
        | (s, some e) => (s, some e)
        | (s, none) => exec f (.doDirect c rest) s
    | .doInvoke _ l =>
      match l with
      | .probe i => ({ s with log := s.log ++ [i] }, none)
      | .handle hc _ => exec f (.doUpdate hc false) s
    | .doCall c g =>
      let cell := getCell s c
      let keep := (groupList cell g).filter (fun l => !isObsolete s l)
      let s := setCell s c (setGroup cell g keep)
      let s := setQueueOf s g (queueOf s g ++ keep.map (fun l => (c, l)))
      if inProgressOf s g then (s, none)
      else
        let s := setInProgressOf s g true
        match exec f (.doDrive g) s with
        | (s, some e) => (s, some e)
        | (s, none) =>
          let s := setInProgressOf s g false
          (setQueueOf s g [], none)
    | .doDrive g =>
      match queueOf s g with
      | [] => (s, none)
      | (c, l) :: rest =>
        let s := setQueueOf s g rest
        match exec f (.doInvoke c l) s with
        | (s, some e) => (s, some e)
        | (s, none) => exec f (.doDrive g) s
    | .doSetType c t =>
      let cell := getCell s c
      if cell.ty = .static then (s, some .frozen)
      else if cell.ty = t then (s, none)
      else
        let s := setCell s c { cell with ty := t }
        match (if cell.ty = .invalid then exec f (.doUpdate c true) s else (s, none)) with
        | (s, some e) => (s, some e)
        | (s, none) => exec f (.doCall c .tc) s
    | .doSetValue c v =>
      let cell := getCell s c
      if cell.ty = .static then (s, some .frozen)
      else
        let s := setCell s c { cell with exp := none }
        if cell.value = v then (s, none)
        else
          let s := setCell s c { getCell s c with value := v }
          if cell.ty ≠ .invalid then exec f (.doUpdate c true) s else (s, none)
    | .doSetExp c e =>
      let cell := getCell s c
      if cell.ty = .static then (s, some .frozen)
      else
        let s := setCell s c { cell with exp := some e }
        if cell.ty ≠ .invalid then exec f (.doUpdate c false) s else (s, none)

/-- `Dynx.update(force)` (src/dynx.js lines 167-226). -/
def update (fuel : Nat) (c : CellId) (force : Bool) (s : St) : St × Option Err :=
  exec fuel (.doUpdate c force) s

/-- The `value` setter (src/dynx.js lines 126-137). -/
def setValue (fuel : Nat) (c : CellId) (v : Val) (s : St) : St × Option Err :=
  exec fuel (.doSetValue c v) s

/-- The `exp` setter (src/dynx.js lines 151-161). -/
def setExp (fuel : Nat) (c : CellId) (e : Exp) (s : St) : St × Option Err :=
  exec fuel (.doSetExp c e) s

/-- The `type` setter (src/dynx.js lines 87-98). -/
def setType (fuel : Nat) (c : CellId) (t : DynxType) (s : St) : St × Option Err :=
  exec fuel (.doSetType c t) s

/-- `onFilterSub` (src/dynx.js lines 336-339): `ADD_LiSTENER('filters', ...)`
(warning on STATIC, then appending regardless) followed by `this.update()`. -/
def onFilterSub (fuel : Nat) (c : CellId) (fl : Filter) (first : Bool) (s : St) : St × Option Err :=
  let s := warnIfStatic c s
  let cell := getCell s c
  let s := setCell s c { cell with filters := if first then fl :: cell.filters else cell.filters ++ [fl] }
  update fuel c false s

/-- `onFilterUnsub` (src/dynx.js lines 345-348): remove the first matching
filter, then `this.update()`. -/
def onFilterUnsub (fuel : Nat) (c : CellId) (fl : Filter) (s : St) : St × Option Err :=
  let cell := getCell s c
  let s := setCell s c { cell with filters := cell.filters.erase fl }
  update fuel c false s

/-- `Dynx.finalize(value)` (src/dynx.js lines 423-426): assign the value,
then retype to STATIC.  If the value setter throws, the retype is skipped. -/
def finalize (fuel : Nat) (c : CellId) (v : Val) (s : St) : St × Option Err :=
  match setValue fuel c v s with
  | (s, some e) => (s, some e)
  | (s, none) => setType fuel c .static s

/-- `new Dynx(initial, type)` (src/dynx.js lines 70-73): allocate a fresh
cell; the constructor itself triggers nothing. -/
def dynxNew (v : Val) (ty : DynxType) (s : St) : CellId × St :=
  (s.cells.length, { s with cells := s.cells ++ [{ value := v, ty := ty }] })

/-- The no-`new` wrapper call `Dynx(expression)` (src/dynx.js lines 459-466):
a fresh DYNAMIC cell whose `exp` is assigned (triggering the first update). -/
def dynxFromExp (fuel : Nat) (e : Exp) (s : St) : CellId × St × Option Err :=
  let (c, s) := dynxNew .undef .dynamic s
  match setExp fuel c e s with
  | (s, e?) => (c, s, e?)

/-- `createBasicCond` (src/DynxTransform.js lines 16-86): a fresh cell,
retyped to INHERIT, given the condition data, and given the combinator
expression (whose assignment triggers the first recomputation).
`elseClosure` records the `_elseThen` closure capture. -/
def createBasicCond (fuel : Nat) (parent : CellId) (ifThens : List (Cond × Val)) (elseT : Val) (s : St) : CellId × St × Option Err :=
  let (c, s) := dynxNew .undef .dynamic s
  match setType fuel c .inherit s with
  | (s, some e) => (c, s, some e)
  | (s, none) =>
    let cell := getCell s c
    let s := setCell s c { cell with condData := some { parent := parent, ifThens := ifThens, elseThen := elseT, elseClosure := elseT } }
    match setExp fuel c (.condE c) s with
    | (s, e?) => (c, s, e?)

/-- `cond.if(condition, then)` (src/DynxTransform.js lines 29-41): push the
pair onto the shared `_ifThens` array; if the cell is STATIC, recreate a new
combinator from the closure variables (the pushed-to array and the
closure-captured else), otherwise update in place. -/
def condIf (fuel : Nat) (c : CellId) (cnd : Cond) (thenV : Val) (s : St) : CellId × St × Option Err :=
  match (getCell s c).condData with
  | none => (c, s, none)
  | some cd =>
    let cd := { cd with ifThens := cd.ifThens ++ [(cnd, thenV)] }
    let s := setCell s c { getCell s c with condData := some cd }
    if (getCell s c).ty = .static then
      createBasicCond fuel cd.parent cd.ifThens cd.elseClosure s
    else
      match update fuel c false s with
      | (s, e?) => (c, s, e?)

/-- `cond.else(then)` (src/DynxTransform.js lines 63-72): assign the
`_elseThen` property; if the cell is STATIC, recreate from the closure
variables — which still hold the original else value, not the new one. -/
def condElse (fuel : Nat) (c : CellId) (thenV : Val) (s : St) : CellId × St × Option Err :=
  match (getCell s c).condData with
  | none => (c, s, none)
  | some cd =>
    let s := setCell s c { getCell s c with condData := some { cd with elseThen := thenV } }
    if (getCell s c).ty = .static then
      createBasicCond fuel cd.parent cd.ifThens cd.elseClosure s
    else
      match update fuel c false s with
      | (s, e?) => (c, s, e?)

/-- `Dynx.prototype.if` (src/DynxTransform.js lines 96-98):
`createBasicCond(this).if(...)`. -/
def dynxIf (fuel : Nat) (parent : CellId) (cnd : Cond) (thenV : Val) (s : St) : CellId × St × Option Err :=
  match createBasicCond fuel parent [] .undef s with
  | (c, s, some e) => (c, s, some e)
  | (c, s, none) => condIf fuel c cnd thenV s

/-! ### Concrete scenarios

Executable states realising the scenarios of the testable properties:
cells are listed in creation order, probe listeners record firings in the
global log, and every step carries ample fuel. -/

/-- C1 setup: `fork = new Dynx(true)` (cell 0), `in1 = new Dynx(0)` (cell 1),
`in2 = new Dynx(1)` (cell 2). -/
def c1s0 : St := { cells := [{ value := .bool true }, { value := .int 0 }, { value := .int 1 }] }

/-- C1: the expression `() => fork.value ? in1.value : in2.value`. -/
def c1exp : Exp := .iteE (.readC 0) (.readC 1) (.readC 2)

/-- C1: `out = Dynx(() => ...)` — cell 3, created through the wrapper. -/
def c1p0 := dynxFromExp 30 c1exp c1s0

/-- C1: a pre-update probe on `out` observes every `out.update()` run. -/
def c1s1 : St := onPreUpdateSub 3 (.probe 0) false c1p0.2.1

/-- C1 step 1: mutate `in2` while `fork` is true. -/
def c1t1 := setValue 30 2 (.int 2) c1s1

/-- C1 step 2: mutate `in1` while `fork` is true. -/
def c1t2 := setValue 30 1 (.int 1) c1t1.1

/-- C1 step 3: flip `fork` to false. -/
def c1t3 := setValue 30 0 (.bool false) c1t2.1

/-- C1 step 4: mutate `in1` after the flip. -/
def c1t4 := setValue 30 1 (.int 5) c1t3.1

/-- C1 step 5: mutate `in2` after the flip. -/
def c1t5 := setValue 30 2 (.int 9) c1t4.1

/-- C2: a DYNAMIC cell holding 0 with one probe in each of the pre-update
(probe 1), update (probe 2) and post-update (probe 3) groups. -/
def c2s : St :=
  { cells := [{ value := .int 0, preupdates := [.probe 1], updates := [.probe 2], postupdates := [.probe 3] }] }

/-- C3: a constant-valued cell with base value 10. -/
def c3s0 : St := { cells := [{ value := .int 10 }] }

/-- C3: attach `F1 = x => x + 1`. -/
def c3p1 := onFilterSub 30 0 (.addF 1) false c3s0

/-- C3: then attach `F2 = x => x * 2`. -/
def c3p2 := onFilterSub 30 0 (.mulF 2) false c3p1.1

/-- C3: then detach `F2`. -/
def c3p3 := onFilterUnsub 30 0 (.mulF 2) c3p2.1

/-- C4: a DYNAMIC cell storing 5, retyped to INVALID. -/
def c4p := setType 30 0 .invalid { cells := [{ value := .int 5 }] }

/-- C5 witness state: a DYNAMIC cell whose expression throws. -/
def c5s : St := { cells := [{ value := .int 3, exp := some .throwE }] }

/-- C6: a DYNAMIC cell holding 0, then `finalize(7)`. -/
def c6p1 := finalize 30 0 (.int 7) { cells := [{ value := .int 0 }] }

/-- C6: the finalized cell's state. -/
def c6s : St := c6p1.1

/-- C6: attaching a filter to the finalized cell. -/
def c6f := onFilterSub 30 0 (.addF 1) false c6s

/-- C7: a DYNAMIC cell with a type-change probe (8) and an update probe (9)
already attached. -/
def c7s0 : St := { cells := [{ value := .int 0, typeChanges := [.probe 8], updates := [.probe 9] }] }

/-- C7: attach a filter, so the cell carries a filter when finalized. -/
def c7p1 := onFilterSub 30 0 (.addF 1) false c7s0

/-- C7: `finalize(7)` — the cell becomes STATIC without any update pass
running while it is STATIC. -/
def c7p2 := finalize 30 0 (.int 7) c7p1.1

/-- C7: a manual `update()` on the now-STATIC cell triggers the terminal
compaction of src/dynx.js lines 218-225. -/
def c7p3 := update 30 0 false c7p2.1

/-- C8 witness state: an INVALID cell with a stored value, an expression,
and a pre-update probe. -/
def c8s : St :=
  { cells := [{ value := .int 5, ty := .invalid, exp := some (.lit (.int 42)), preupdates := [.probe 6] }] }

/-- C9: a STATIC parent whose value 0 is falsy, so the conditional always
falls through to its else value. -/
def c9s0 : St := { cells := [{ value := .int 0, ty := .static }] }

/-- C9: `parent.if(x => Boolean(x), 100)` — the intermediate combinator
(cell 1) is immediately STATIC (its only read is the STATIC parent), so
`cond.if` recreates, returning cell 2. -/
def c9p1 := dynxIf 30 0 .truthyC (.int 100) c9s0

/-- C9: `cond.else(55)` on the STATIC conditional — the recreation path. -/
def c9p2 := condElse 30 c9p1.1 (.int 55) c9p1.2.1

/-- C10 witness state: a derived cell whose expression last computed 4, with
an update probe attached. -/
def c10s : St :=
  { cells := [{ value := .int 4, exp := some (.lit (.int 4)), updates := [.probe 1] }] }

/-! ### Frame lemmas for the cell store -/

theorem getCell_setCell_self {s : St} {c : CellId} {x : Cell} (h : c < s.cells.length) :
    getCell (setCell s c x) c = x := by
  simp [getCell, setCell, List.getD_eq_getElem?_getD, List.getElem?_set_self h]

theorem getCell_setCell_ne {s : St} {c d : CellId} {x : Cell} (h : c ≠ d) :
    getCell (setCell s c x) d = getCell s d := by
  simp [getCell, setCell, List.getD_eq_getElem?_getD, List.getElem?_set_ne h]

theorem setCell_setCell {s : St} {c : CellId} {x y : Cell} :
    setCell (setCell s c x) c y = setCell s c y := by
  simp [setCell, List.set_set]

theorem length_setCell {s : St} {c : CellId} {x : Cell} :
    (setCell s c x).cells.length = s.cells.length := by
  simp [setCell]

theorem setCell_out_of_range {s : St} {c : CellId} {x : Cell} (h : s.cells.length ≤ c) :
    setCell s c x = s := by
  simp [setCell, List.set_eq_of_length_le h]

theorem setCell_getCell_self {s : St} {c : CellId} (h : c < s.cells.length) :
    setCell s c (getCell s c) = s := by
  have hset : s.cells.set c (getCell s c) = s.cells := by
    apply List.ext_getElem?
    intro i
    by_cases hi : c = i
    · subst hi
      rw [List.getElem?_set_self h, List.getElem?_eq_getElem h]
      simp [getCell, List.getD_eq_getElem?_getD, List.getElem?_eq_getElem h]
    · rw [List.getElem?_set_ne hi]
  simp [setCell, hset]

theorem getCell_warnIfStatic {c x : CellId} {s : St} :
    getCell (warnIfStatic c s) x = getCell s x := by
  unfold warnIfStatic
  split <;> rfl

theorem value_getCell_setCell {s : St} {t x : CellId} {y : Cell}
    (h : y.value = (getCell s t).value) :
    (getCell (setCell s t y) x).value = (getCell s x).value := by
  by_cases htx : t = x
  · subst htx
    by_cases hl : t < s.cells.length
    · rw [getCell_setCell_self hl, h]
    · rw [setCell_out_of_range (le_of_not_lt hl)]
  · rw [getCell_setCell_ne htx]

theorem value_onUpdateSub {c : CellId} {l : Listener} {first : Bool} {s : St} {x : CellId} :
    (getCell (onUpdateSub c l first s) x).value = (getCell s x).value := by
  simp only [onUpdateSub]
  refine (value_getCell_setCell ?_).trans (congrArg Cell.value getCell_warnIfStatic)
  rfl

theorem value_pendingRaise {t c x : CellId} {s : St} :
    (getCell (pendingRaise t c s) x).value = (getCell s x).value := by
  unfold pendingRaise
  split
  · exact value_getCell_setCell rfl
  · rfl

theorem getCell_pushed {s : St} {c : CellId} {x : Cell} {st : List (Option CellId)}
    (h : c < s.cells.length) :
    getCell { cells := (setCell s c x).cells, childStack := st,
              updQueue := (setCell s c x).updQueue, updInProgress := (setCell s c x).updInProgress,
              tcQueue := (setCell s c x).tcQueue, tcInProgress := (setCell s c x).tcInProgress,
              log := (setCell s c x).log, warnings := (setCell s c x).warnings } c = x :=
  getCell_setCell_self h

theorem value_subscribeRead {c x : CellId} {s : St} :
    (getCell (subscribeRead c s) x).value = (getCell s x).value := by
  unfold subscribeRead
  split
  · rfl
  · split
    · rfl
    · split
      · rfl
      · dsimp only
        split
        · rw [value_onUpdateSub, value_pendingRaise]
        · rw [value_pendingRaise]

set_option maxRecDepth 20000

/-! ### Unfolding equations and listener-run lemmas for the interpreter -/

theorem exec_direct_nil (f : Nat) (c : CellId) (s : St) :
    exec (f + 1) (.doDirect c []) s = (s, none) := rfl

theorem exec_direct_cons (f : Nat) (c : CellId) (l : Listener) (ls : List Listener) (s : St) :
    exec (f + 1) (.doDirect c (l :: ls)) s =
      (match exec f (.doInvoke c l) s with
       | (s, some e) => (s, some e)
       | (s, none) => exec f (.doDirect c ls) s) := rfl

theorem exec_invoke_probe (f : Nat) (c : CellId) (i : Nat) (s : St) :
    exec (f + 1) (.doInvoke c (.probe i)) s = ({ s with log := s.log ++ [i] }, none) := rfl

theorem exec_drive_eq (f : Nat) (g : Group) (s : St) :
    exec (f + 1) (.doDrive g) s =
      (match queueOf s g with
       | [] => (s, none)
       | (c, l) :: rest =>
         match exec f (.doInvoke c l) (setQueueOf s g rest) with
         | (s, some e) => (s, some e)
         | (s, none) => exec f (.doDrive g) s) := rfl

theorem exec_call_eq (f : Nat) (c : CellId) (g : Group) (s : St) :
    exec (f + 1) (.doCall c g) s =
      (let cell := getCell s c
       let keep := (groupList cell g).filter (fun l => !isObsolete s l)
       let s := setCell s c (setGroup cell g keep)
       let s := setQueueOf s g (queueOf s g ++ keep.map (fun l => (c, l)))
       if inProgressOf s g then (s, none)
       else
         let s := setInProgressOf s g true
         match exec f (.doDrive g) s with
         | (s, some e) => (s, some e)
         | (s, none) =>
           let s := setInProgressOf s g false
           (setQueueOf s g [], none)) := rfl

theorem exec_update_eq (f : Nat) (c : CellId) (force : Bool) (s : St) :
    exec (f + 1) (.doUpdate c force) s =
      (match exec f (.doDirect c (getCell s c).preupdates) s with
      | (s, some e) => (s, some e)
      | (s, none) =>
        let cell := getCell s c
        let s := if cell.ty = .inherit then setCell s c { cell with pendingType := .static } else s
        match (if cell.exp.isSome || !cell.filters.isEmpty
               then evalPhase c s
               else (s, .ok cell.value)) with
        | (s, .error e) => (s, some e)
        | (s, .ok v) =>
          match (if (getCell s c).ty = .inherit
                 then exec f (.doSetType c (getCell s c).pendingType) s
                 else (s, none)) with
          | (s, some e) => (s, some e)
          | (s, none) =>
            match (if v ≠ (getCell s c).value ∨ force = true then
                     let s := setCell s c { getCell s c with value := v }
                     exec f (.doCall c .upd) s
                   else (s, none)) with
            | (s, some e) => (s, some e)
            | (s, none) =>
              match exec f (.doDirect c (getCell s c).postupdates) s with
              | (s, some e) => (s, some e)
              | (s, none) =>
                let s := if (getCell s c).ty = .static then
                           setCell s c
                             { getCell s c with
                               preupdates := [], exp := none, filters := [],
                               updates := [], postupdates := [] }
                         else s
                (s, none)) := rfl

theorem exec_setValue_eq (f : Nat) (c : CellId) (v : Val) (s : St) :
    exec (f + 1) (.doSetValue c v) s =
      (let cell := getCell s c
       if cell.ty = .static then (s, some .frozen)
       else
         let s := setCell s c { cell with exp := none }
         if cell.value = v then (s, none)
         else
           let s := setCell s c { getCell s c with value := v }
           if cell.ty ≠ .invalid then exec f (.doUpdate c true) s else (s, none)) := rfl

theorem exec_setExp_eq (f : Nat) (c : CellId) (e : Exp) (s : St) :
    exec (f + 1) (.doSetExp c e) s =
      (let cell := getCell s c
       if cell.ty = .static then (s, some .frozen)
       else
         let s := setCell s c { cell with exp := some e }
         if cell.ty ≠ .invalid then exec f (.doUpdate c false) s else (s, none)) := rfl

theorem exec_setType_eq (f : Nat) (c : CellId) (t : DynxType) (s : St) :
    exec (f + 1) (.doSetType c t) s =
      (let cell := getCell s c
       if cell.ty = .static then (s, some .frozen)
       else if cell.ty = t then (s, none)
       else
         let s := setCell s c { cell with ty := t }
         match (if cell.ty = .invalid then exec f (.doUpdate c true) s else (s, none)) with
         | (s, some e) => (s, some e)
         | (s, none) => exec f (.doCall c .tc) s) := rfl

theorem getCell_with_log (s : St) (lg : List Nat) (c : CellId) :
    getCell { s with log := lg } c = getCell s c := rfl

/-- Probe listeners are never obsolete, so the `CALL_LISTENERS` pruning scan
keeps them all. -/
theorem filter_probes (s : St) (ids : List Nat) :
    (ids.map Listener.probe).filter (fun l => !isObsolete s l) = ids.map Listener.probe := by
  induction ids with
  | nil => rfl
  | cons i rest ih => simp [List.filter, isObsolete, ih]

/-- The direct (pre/post-update) listener loop over a list of probes appends
their ids to the log and touches nothing else. -/
theorem exec_direct_probes (ids : List Nat) :
    ∀ (fuel : Nat) (c : CellId) (s : St), 2 * ids.length < fuel →
    exec fuel (.doDirect c (ids.map .probe)) s = ({ s with log := s.log ++ ids }, none) := by
  induction ids with
  | nil =>
    intro fuel c s h
    match fuel, h with
    | f + 1, _ =>
      rw [List.map_nil, exec_direct_nil]
      cases s
      simp
  | cons i rest ih =>
    intro fuel c s h
    rw [List.length_cons] at h
    match fuel, h with
    | (f + 1) + 1, h =>
      have h2 : 2 * rest.length < f + 1 := by omega
      rw [List.map_cons, exec_direct_cons, exec_invoke_probe]
      dsimp only
      rw [ih (f + 1) c _ h2]
      simp

/-- Driving an update-dispatch queue holding only probe thunks empties the
queue and appends the probe ids to the log in FIFO order. -/
theorem exec_drive_upd_probes (qs : List (CellId × Nat)) :
    ∀ (fuel : Nat) (s : St), 2 * qs.length < fuel →
    s.updQueue = qs.map (fun q => (q.1, .probe q.2)) →
    exec fuel (.doDrive .upd) s = ({ s with updQueue := [], log := s.log ++ qs.map Prod.snd }, none) := by
  induction qs with
  | nil =>
    intro fuel s h hq
    rw [List.map_nil] at hq
    match fuel, h with
    | f + 1, _ =>
      rw [exec_drive_eq]
      dsimp only [queueOf]
      rw [hq]
      cases s
      simp_all
  | cons q rest ih =>
    intro fuel s h hq
    rw [List.length_cons] at h
    rw [List.map_cons] at hq
    match fuel, h with
    | (f + 1) + 1, h =>
      have h2 : 2 * rest.length < f + 1 := by omega
      rw [exec_drive_eq]
      dsimp only [queueOf]
      rw [hq]
      dsimp only [setQueueOf]
      rw [exec_invoke_probe]
      dsimp only
      rw [ih (f + 1) _ h2 (by simp)]
      simp

/-- `CALL_LISTENERS('updates')` on a cell whose update group holds only
probes (with an idle queue): every probe fires once, in order. -/
theorem exec_call_upd_probes (ids : List Nat) (fuel : Nat) (c : CellId) (s : St)
    (h : 2 * ids.length + 1 < fuel)
    (hupd : (getCell s c).updates = ids.map .probe)
    (hq : s.updQueue = []) (hip : s.updInProgress = false) (hc : c < s.cells.length) :
    exec fuel (.doCall c .upd) s = ({ s with log := s.log ++ ids }, none) := by
  match fuel, h with
  | f + 1, h =>
    rw [exec_call_eq]
    dsimp only [groupList, setGroup, queueOf, setQueueOf, inProgressOf, setInProgressOf]
    rw [hupd, filter_probes]
    have hcollapse : ({ getCell s c with updates := ids.map Listener.probe } : Cell) = getCell s c := by
      rw [← hupd]
    rw [hcollapse, setCell_getCell_self hc, hq, hip]
    rw [exec_drive_upd_probes (ids.map fun i => (c, i)) f _ (by simp; omega) (by simp)]
    cases s
    simp_all

/-- `CALL_LISTENERS('typeChanges')` on a cell with no type-change listeners
(and an idle queue) is a no-op. -/
theorem exec_call_tc_empty (fuel : Nat) (c : CellId) (s : St)
    (h : 1 < fuel) (htc : (getCell s c).typeChanges = [])
    (hq : s.tcQueue = []) (hip : s.tcInProgress = false) (hc : c < s.cells.length) :
    exec fuel (.doCall c .tc) s = (s, none) := by
  match fuel, h with
  | f + 1, h =>
    rw [exec_call_eq]
    dsimp only [groupList, setGroup, queueOf, setQueueOf, inProgressOf, setInProgressOf]
    rw [htc]
    have hcollapse : ({ getCell s c with typeChanges := ([] : List Listener) } : Cell) = getCell s c := by
      rw [← htc]
    rw [List.filter_nil, hcollapse, setCell_getCell_self hc, hq, hip]
    match f, h with
    | f2 + 1, _ =>
      rw [exec_drive_eq]
      dsimp only [queueOf]
      cases s
      simp_all

/-- A filter list containing the throwing filter always errors, whatever
value is threaded into it (the arithmetic filters never fail). -/
theorem applyFiltersE_of_mem_throw (fs : List Filter) :
    ∀ v : Val, Filter.throwF ∈ fs → applyFiltersE fs v = .error .throwErr := by
  induction fs with
  | nil =>
    intro v h
    cases h
  | cons fl rest ih =>
    intro v h
    cases fl with
    | throwF => simp [applyFiltersE, applyFilter]
    | addF n =>
      have hr : Filter.throwF ∈ rest := by simpa using h
      cases v <;> simp [applyFiltersE, applyFilter] <;> exact ih _ hr
    | mulF n =>
      have hr : Filter.throwF ∈ rest := by simpa using h
      cases v <;> simp [applyFiltersE, applyFilter] <;> exact ih _ hr

/-! ### Claim theorems -/

/-- C1: dynamic minimal subscription.  With `fork=true`, `in1=0`, `in2=1`
and `out = fork ? in1 : in2` (pre-update probe 0 observing `out`'s update
propagation): mutating `in2` while `fork` is true does not trigger `out`
(log unchanged), mutating `in1` does (one probe firing), and after `fork`
flips to false the polarity reverses; `out` ends at `in2`'s final value. -/
theorem C1_dynamic_minimal_subscription :
    c1p0.2.2 = none ∧ c1s1.log = [] ∧ (getCell c1s1 3).value = .int 0 ∧
    c1t1.2 = none ∧ c1t1.1.log = [] ∧
    c1t2.2 = none ∧ c1t2.1.log = [0] ∧
    c1t3.2 = none ∧ c1t3.1.log = [0, 0] ∧
    c1t4.2 = none ∧ c1t4.1.log = [0, 0] ∧
    c1t5.2 = none ∧ c1t5.1.log = [0, 0, 0] ∧
    (getCell c1t5.1 3).value = .int 9 := by decide

/-- C2 counterexample: on a value-unchanged cell with probes 1/2/3 in the
pre-update/update/post-update groups, `update(false)` fires the pre-update
and post-update probes (log `[1, 3]`), refuting the claim that none of the
three groups fires. -/
theorem C2_counterexample :
    (update 30 0 false c2s).1.log = [1, 3] ∧ (update 30 0 false c2s).2 = none ∧
    ¬ (update 30 0 false c2s).1.log = [] := by decide

/-- C2 amended: on a cell with no expression and no filters whose pre-update,
update and post-update groups hold probe listeners: `update(false)` with an
unchanged value fires the pre-update and post-update probes but not the
update probes; `update(true)` fires all three groups; and an assignment of
the unchanged value fires nothing at all (the state is returned untouched —
the exp-delete rewrites `none` to `none`). -/
theorem C2_force_semantics_amended (s : St) (c : CellId) (v0 : Val) (pres us posts : List Nat)
    (cell0 : Cell) (fuel : Nat)
    (hc : c < s.cells.length)
    (hcell : getCell s c = cell0)
    (hval : cell0.value = v0)
    (hty : cell0.ty = .dynamic)
    (hexp : cell0.exp = none)
    (hfil : cell0.filters = [])
    (hpre : cell0.preupdates = pres.map .probe)
    (hupd : cell0.updates = us.map .probe)
    (hpost : cell0.postupdates = posts.map .probe)
    (hq : s.updQueue = []) (hip : s.updInProgress = false)
    (hf : 2 * pres.length + 2 * us.length + 2 * posts.length + 4 ≤ fuel) :
    update fuel c false s = ({ s with log := s.log ++ pres ++ posts }, none) ∧
    update fuel c true s = ({ s with log := s.log ++ pres ++ us ++ posts }, none) ∧
    setValue fuel c v0 s = (s, none) := by
  subst hcell
  refine ⟨?_, ?_, ?_⟩
  · match fuel, hf with
    | f + 1, hf =>
      unfold update
      rw [exec_update_eq, hpre]
      rw [exec_direct_probes pres f c s (by omega)]
      have hb2 : 2 * posts.length < f := by omega
      simp [getCell_with_log, hty, hexp, hfil, hpost, exec_direct_probes posts f c, hb2,
        List.append_assoc]
  · match fuel, hf with
    | f + 1, hf =>
      unfold update
      rw [exec_update_eq, hpre]
      rw [exec_direct_probes pres f c s (by omega)]
      have hb2 : 2 * posts.length < f := by omega
      have hb3 : 2 * us.length + 1 < f := by omega
      simp only [getCell, List.getD_eq_getElem?_getD, List.getElem?_eq_getElem hc,
        Option.getD_some] at hval hty hexp hfil hupd hpost
      have hcellrec : Cell.mk s.cells[c].value DynxType.dynamic none []
          s.cells[c].preupdates (List.map Listener.probe us) (List.map Listener.probe posts)
          s.cells[c].typeChanges s.cells[c].handleGen s.cells[c].pendingType s.cells[c].condData
          = s.cells[c] := by
        rw [← hty, ← hexp, ← hfil, ← hupd, ← hpost]
      have hsetself : s.cells.set c s.cells[c] = s.cells := by
        apply List.ext_getElem?
        intro i
        by_cases hi : c = i
        · subst hi
          rw [List.getElem?_set_self hc, List.getElem?_eq_getElem hc]
        · rw [List.getElem?_set_ne hi]
      simp [getCell, setCell, hty, hexp, hfil, hupd, hpost, hq, hip, hc, hcellrec, hsetself,
        exec_direct_probes posts f c, exec_call_upd_probes us f c, hb2, hb3,
        List.append_assoc]
  · match fuel, hf with
    | f + 1, hf =>
      unfold setValue
      rw [exec_setValue_eq]
      dsimp only
      have hnst : ¬ (getCell s c).ty = DynxType.static := by
        rw [hty]
        decide
      rw [if_neg hnst]
      have hcollapse : ({ getCell s c with exp := none } : Cell) = getCell s c := by
        rw [← hexp]
      rw [hcollapse, setCell_getCell_self hc, if_pos hval]

/-- C2 witness: the amended theorem applied to the concrete cell of `c2s`
(probe 1 pre-update, probe 2 update, probe 3 post-update, value 0). -/
theorem C2_force_semantics_witness :
    (0 < c2s.cells.length ∧
     getCell c2s 0 = { value := .int 0, preupdates := [.probe 1], updates := [.probe 2],
                       postupdates := [.probe 3] } ∧
     c2s.updQueue = [] ∧ c2s.updInProgress = false) ∧
    (update 30 0 false c2s = ({ c2s with log := c2s.log ++ [1] ++ [3] }, none) ∧
     update 30 0 true c2s = ({ c2s with log := c2s.log ++ [1] ++ [2] ++ [3] }, none) ∧
     setValue 30 0 (.int 0) c2s = (c2s, none)) :=
  ⟨⟨by decide, by decide, by decide, by decide⟩,
    C2_force_semantics_amended c2s 0 (.int 0) [1] [2] [3]
      { value := .int 0, preupdates := [.probe 1], updates := [.probe 2], postupdates := [.probe 3] }
      30 (by decide) (by decide) (by decide) (by decide) (by decide) (by decide) (by decide)
      (by decide) (by decide) (by decide) (by decide) (by decide)⟩

/-- C3 counterexample: with base 10, `F1 = x => x + 1`, `F2 = x => x * 2`:
after attaching `F1` then `F2` the value is 24 = F2(F1(F1(10))), not
F2(F1(10)) = 22; after detaching `F2` the value is 25 = F1(24), not
F1(10) = 11 — each recomputation re-filters the stored, already-filtered
value, not the pre-filter base. -/
theorem C3_counterexample :
    c3p2.2 = none ∧ (getCell c3p2.1 0).value = .int 24 ∧
    ¬ (getCell c3p2.1 0).value = .int 22 ∧
    c3p3.2 = none ∧ (getCell c3p3.1 0).value = .int 25 ∧
    ¬ (getCell c3p3.1 0).value = .int 11 := by decide

/-- C3 amended: for a constant-valued cell the candidate value of each
recomputation starts from the stored (already filtered) value, so attaching
`F1` yields F1(10) = 11, attaching `F2` then yields F2(F1(11)) = 24, and
detaching `F2` yields F1(24) = 25 — never the idempotent F1(10). -/
theorem C3_filter_rebase_amended :
    c3p1.2 = none ∧ (getCell c3p1.1 0).value = .int 11 ∧
    c3p2.2 = none ∧ (getCell c3p2.1 0).value = .int 24 ∧
    c3p3.2 = none ∧ (getCell c3p3.1 0).value = .int 25 := by decide

/-- C4 counterexample: a cell holding 5 retyped to INVALID still reads 5 —
the last stored value, not an invalid sentinel (the typed-lifecycle
implementation has no sentinel; its `value` getter returns `this[VALUE]`
unconditionally). -/
theorem C4_counterexample :
    c4p.2 = none ∧ (getCell c4p.1 0).ty = .invalid ∧
    (readValue 0 c4p.1).1 = .int 5 ∧ ¬ (readValue 0 c4p.1).1 = .undef := by decide

/-- C6 counterexample: after `finalize(7)`, attaching a filter does not
throw `FrozenMutationError` — it logs an advisory warning, appends the
filter, and the triggered update pass even changes the frozen value to 8. -/
theorem C6_counterexample :
    c6p1.2 = none ∧ (getCell c6s 0).ty = .static ∧
    ¬ c6f.2 = some .frozen ∧ c6f.2 = none ∧
    c6f.1.warnings = 1 ∧ (getCell c6f.1 0).value = .int 8 ∧
    ¬ (getCell c6f.1 0).value = .int 7 := by decide

/-- C6 amended: after `finalize(7)` the cell reads 7 and the `value`,
`exp` and `type` setters all throw the frozen-mutation error; but listener
attach merely warns (`console.error`) and still registers the listener, and
filter attach likewise warns and triggers an update pass instead of
throwing. -/
theorem C6_finalize_amended :
    c6p1.2 = none ∧ (getCell c6s 0).value = .int 7 ∧ (readValue 0 c6s).1 = .int 7 ∧
    (setValue 30 0 (.int 9) c6s).2 = some .frozen ∧
    (setExp 30 0 (.lit (.int 9)) c6s).2 = some .frozen ∧
    (setType 30 0 .dynamic c6s).2 = some .frozen ∧
    (onUpdateSub 0 (.probe 4) false c6s).warnings = 1 ∧
    (getCell (onUpdateSub 0 (.probe 4) false c6s) 0).updates = [.probe 4] ∧
    c6f.2 = none := by decide

/-- C7 counterexample: a cell carrying a filter, an update probe and a
type-change probe is finalized; it is STATIC yet still retains the filter
and both listener groups (the compaction of src/dynx.js lines 218-225 only
runs at the end of an `update` pass, and `finalize` runs none after the
type flips to STATIC). -/
theorem C7_counterexample :
    c7p2.2 = none ∧ (getCell c7p2.1 0).ty = .static ∧
    (getCell c7p2.1 0).filters = [.addF 1] ∧
    (getCell c7p2.1 0).updates = [.probe 9] ∧
    (getCell c7p2.1 0).typeChanges = [.probe 8] := by decide

/-- C7 amended: the terminal compaction happens only when an `update` pass
ends with the type STATIC, and it releases the expression, filters and the
pre-update/update/post-update groups but never the type-change group; a
manual `update()` on the finalized cell (whose retained filter moves the
value from 8 to 9) performs exactly that compaction. -/
theorem C7_compaction_amended :
    c7p3.2 = none ∧ (getCell c7p3.1 0).ty = .static ∧
    (getCell c7p3.1 0).exp = none ∧ (getCell c7p3.1 0).filters = [] ∧
    (getCell c7p3.1 0).preupdates = [] ∧ (getCell c7p3.1 0).updates = [] ∧
    (getCell c7p3.1 0).postupdates = [] ∧
    (getCell c7p3.1 0).typeChanges = [.probe 8] ∧
    (getCell c7p3.1 0).value = .int 9 := by decide

/-- C4 amended: reading the value of a cell whose type is INVALID returns
the last stored value — the getter's subscription side effects never change
any cell's stored value and no sentinel substitution occurs. -/
theorem C4_invalid_read_amended (s : St) (c : CellId)
    (h : (getCell s c).ty = .invalid) :
    (readValue c s).1 = (getCell s c).value := by
  unfold readValue
  exact value_subscribeRead

/-- C4 witness: the amended theorem applied to the concrete invalidated
cell of `c4p`. -/
theorem C4_invalid_read_witness :
    (getCell c4p.1 0).ty = .invalid ∧ (readValue 0 c4p.1).1 = (getCell c4p.1 0).value :=
  ⟨by decide, C4_invalid_read_amended c4p.1 0 (by decide)⟩

/-- C10: on any non-STATIC cell, assigning the cell's own current value
deletes the stored expression and does nothing else — the resulting state
is exactly the old state with the cell's `exp` cleared: no listener fires,
no recomputation runs, and no error is raised. -/
theorem C10_value_set_deletes_exp (s : St) (c : CellId) (v : Val) (fuel : Nat)
    (hty : ¬ (getCell s c).ty = .static) (hval : (getCell s c).value = v) :
    setValue (fuel + 1) c v s = (setCell s c { getCell s c with exp := none }, none) := by
  simp [setValue, exec, hty, hval]

/-- C10 witness: assigning 4 to the derived cell of `c10s` (whose current
value is 4) silently converts it into a constant. -/
theorem C10_value_set_deletes_exp_witness :
    (¬ (getCell c10s 0).ty = .static ∧ (getCell c10s 0).value = .int 4) ∧
    setValue 30 0 (.int 4) c10s = (setCell c10s 0 { getCell c10s 0 with exp := none }, none) :=
  ⟨⟨by decide, by decide⟩, C10_value_set_deletes_exp c10s 0 (.int 4) 29 (by decide) (by decide)⟩

/-- C5: exception atomicity.  If a DYNAMIC cell's expression is the throwing
expression — or it has no expression and its filter chain contains the
throwing filter — then `update` propagates the exception to its caller and
the cell's stored value is left at its pre-update value (the state reached
is exactly: handle refreshed, child stack still pushed — mirroring the
source's lack of a finally — and no value assignment). -/
theorem C5_exception_atomicity (s : St) (c : CellId) (cell0 : Cell) (force : Bool) (fuel : Nat)
    (hc : c < s.cells.length)
    (hcell : getCell s c = cell0)
    (hpre : cell0.preupdates = [])
    (hty : cell0.ty = .dynamic)
    (hthrow : cell0.exp = some .throwE ∨ (cell0.exp = none ∧ Filter.throwF ∈ cell0.filters)) :
    update (fuel + 2) c force s =
      ({ setCell s c { cell0 with handleGen := cell0.handleGen + 1 } with
          childStack := some c :: s.childStack }, some .throwErr) ∧
    (getCell (update (fuel + 2) c force s).1 c).value = cell0.value := by
  subst hcell
  have key : update (fuel + 2) c force s =
      ({ setCell s c { getCell s c with handleGen := (getCell s c).handleGen + 1 } with
          childStack := some c :: s.childStack }, some .throwErr) := by
    have hev : evalPhase c s =
        ({ setCell s c { getCell s c with handleGen := (getCell s c).handleGen + 1 } with
            childStack := some c :: s.childStack }, .error .throwErr) := by
      rcases hthrow with hexp | ⟨hexp, hmem⟩
      · unfold evalPhase
        dsimp only
        rw [hexp]
        dsimp only [evalExp]
        rfl
      · unfold evalPhase
        dsimp only
        rw [hexp]
        dsimp only
        rw [getCell_pushed hc]
        dsimp only
        rw [applyFiltersE_of_mem_throw _ _ hmem]
        rfl
    rcases hthrow with hexp | ⟨hexp, hmem⟩
    · unfold update
      simp [exec, hpre, hty, hexp, hev]
    · have hfe : (getCell s c).filters.isEmpty = false := by
        rcases hfl : (getCell s c).filters with _ | ⟨a, l⟩
        · rw [hfl] at hmem
          cases hmem
        · rfl
      unfold update
      simp [exec, hpre, hty, hexp, hfe, hev]
  refine ⟨key, ?_⟩
  rw [key]
  have hg : getCell ({ setCell s c { getCell s c with handleGen := (getCell s c).handleGen + 1 } with
      childStack := some c :: s.childStack } : St) c
      = { getCell s c with handleGen := (getCell s c).handleGen + 1 } :=
    getCell_setCell_self hc
  rw [hg]

/-- C5 witness: the theorem applied to the concrete throwing-expression
cell of `c5s`. -/
theorem C5_exception_atomicity_witness :
    (0 < c5s.cells.length ∧
     getCell c5s 0 = { value := .int 3, exp := some .throwE } ∧
     ({ value := .int 3, exp := some .throwE } : Cell).preupdates = [] ∧
     ({ value := .int 3, exp := some .throwE } : Cell).ty = .dynamic ∧
     ({ value := .int 3, exp := some .throwE } : Cell).exp = some .throwE) ∧
    (update 30 0 false c5s =
      ({ setCell c5s 0 { ({ value := .int 3, exp := some .throwE } : Cell) with handleGen := 1 } with
          childStack := [some 0] }, some .throwErr) ∧
     (getCell (update 30 0 false c5s).1 0).value = Val.int 3) :=
  ⟨⟨by decide, by decide, by decide, by decide, by decide⟩,
    C5_exception_atomicity c5s 0 { value := .int 3, exp := some .throwE } false 28
      (by decide) (by decide) (by decide) (by decide) (Or.inl (by decide))⟩

/-- C8: suspension under INVALID.  On an INVALID cell (here: holding an
expression, a pre-update probe, and otherwise empty groups), assigning a new
value stores it (and deletes the expression) without running any update pass
or firing any listener; assigning a new expression stores it equally
silently; and retyping to DYNAMIC forces a full recomputation: the
pre-update probe fires, the handle is refreshed, and the stored value
becomes the expression's result. -/
theorem C8_invalid_suspension (s : St) (c : CellId) (cell0 : Cell) (v : Val) (e : Exp)
    (w : Val) (p : Nat) (fuel : Nat)
    (hc : c < s.cells.length)
    (hcell : getCell s c = cell0)
    (hty : cell0.ty = .invalid)
    (hexp : cell0.exp = some (.lit w))
    (hfil : cell0.filters = [])
    (hpre : cell0.preupdates = [.probe p])
    (hupd : cell0.updates = [])
    (hpost : cell0.postupdates = [])
    (htc : cell0.typeChanges = [])
    (hq : s.updQueue = []) (hip : s.updInProgress = false)
    (htq : s.tcQueue = []) (htip : s.tcInProgress = false)
    (hf : 12 ≤ fuel) :
    setValue fuel c v s = (setCell s c { cell0 with exp := none, value := v }, none) ∧
    setExp fuel c e s = (setCell s c { cell0 with exp := some e }, none) ∧
    setType fuel c .dynamic s =
      ({ setCell s c { cell0 with ty := .dynamic, value := w, handleGen := cell0.handleGen + 1 } with
          log := s.log ++ [p] }, none) := by
  subst hcell
  have hnst : ¬ (getCell s c).ty = DynxType.static := by
    rw [hty]
    decide
  have hninv : ¬ (getCell s c).ty ≠ DynxType.invalid := by
    rw [hty]
    decide
  refine ⟨?_, ?_, ?_⟩
  · obtain ⟨f1, rfl⟩ : ∃ x, fuel = x + 1 := ⟨fuel - 1, by omega⟩
    unfold setValue
    rw [exec_setValue_eq]
    dsimp only
    rw [if_neg hnst]
    by_cases hveq : (getCell s c).value = v
    · rw [if_pos hveq, ← hveq]
    · rw [if_neg hveq, getCell_setCell_self hc, setCell_setCell, if_neg hninv]
  · obtain ⟨f1, rfl⟩ : ∃ x, fuel = x + 1 := ⟨fuel - 1, by omega⟩
    unfold setExp
    rw [exec_setExp_eq]
    dsimp only
    rw [if_neg hnst, if_neg hninv]
  · obtain ⟨f1, rfl⟩ : ∃ x, fuel = x + 1 := ⟨fuel - 1, by omega⟩
    unfold setType
    rw [exec_setType_eq]
    dsimp only
    rw [if_neg hnst, if_neg (by rw [hty]; decide), if_pos hty]
    obtain ⟨f2, rfl⟩ : ∃ x, f1 = x + 1 := ⟨f1 - 1, by omega⟩
    rw [exec_update_eq, getCell_setCell_self hc]
    rw [hpre]
    obtain ⟨f3, rfl⟩ : ∃ x, f2 = x + 1 := ⟨f2 - 1, by omega⟩
    rw [show (Listener.probe p :: ([] : List Listener)) = [p].map Listener.probe from rfl]
    rw [exec_direct_probes [p] (f3 + 1) c _ (by simp; omega)]
    simp only [getCell, List.getD_eq_getElem?_getD, List.getElem?_eq_getElem hc,
      Option.getD_some] at hty hexp hfil hupd hpost htc
    have h1 : 1 < f3 + 1 := by omega
    have h2 : 1 < f3 + 1 + 1 := by omega
    simp [getCell, setCell, evalPhase, evalExp, applyFiltersE, List.getD_eq_getElem?_getD,
      List.length_set, List.getElem?_set_self, List.set_set, hc, hty, hexp, hfil, hupd, hpost, htc,
      hq, hip, htq, htip, h1, h2,
      exec_direct_nil, exec_call_upd_probes [] (f3 + 1) c, exec_call_tc_empty (f3 + 1 + 1) c]

/-- C8 witness: the theorem applied to the concrete INVALID cell of `c8s`
(stored value 5, expression returning 42, pre-update probe 6). -/
theorem C8_invalid_suspension_witness :
    (0 < c8s.cells.length ∧
     getCell c8s 0 = { value := .int 5, ty := .invalid, exp := some (.lit (.int 42)),
                       preupdates := [.probe 6] } ∧
     c8s.updQueue = [] ∧ c8s.updInProgress = false ∧
     c8s.tcQueue = [] ∧ c8s.tcInProgress = false) ∧
    (setValue 30 0 (.int 11) c8s =
      (setCell c8s 0 { value := .int 11, ty := .invalid, exp := none, preupdates := [.probe 6] },
       none) ∧
     setExp 30 0 (.lit (.int 0)) c8s =
      (setCell c8s 0 { value := .int 5, ty := .invalid, exp := some (.lit (.int 0)),
                       preupdates := [.probe 6] }, none) ∧
     setType 30 0 .dynamic c8s =
      ({ setCell c8s 0 { value := .int 42, ty := .dynamic, exp := some (.lit (.int 42)),
                         preupdates := [.probe 6], handleGen := 1 } with
          log := c8s.log ++ [6] }, none)) :=
  ⟨⟨by decide, by decide, by decide, by decide, by decide, by decide⟩,
    C8_invalid_suspension c8s 0
      { value := .int 5, ty := .invalid, exp := some (.lit (.int 42)), preupdates := [.probe 6] }
      (.int 11) (.lit (.int 0)) (.int 42) 6 30
      (by decide) (by decide) (by decide) (by decide) (by decide) (by decide) (by decide)
      (by decide) (by decide) (by decide) (by decide) (by decide) (by decide) (by decide)⟩

/-- C9: evaluating the code at the failing input.  A conditional over a
STATIC falsy parent becomes STATIC (cell 2); `cond.else(55)` then takes the
recreation path, but the new combinator (cell 3) is built from the
closure-captured `_elseThen`, not the newly assigned property, so it carries
the old else value `undefined` and evaluates to `undefined` instead of 55 —
while the old cell's (frozen, never recomputed) property does hold 55. -/
theorem C9_static_else_recreation_bug :
    c9p1.1 = 2 ∧ c9p1.2.2 = none ∧ (getCell c9p1.2.1 2).ty = .static ∧
    c9p2.1 = 3 ∧ c9p2.2.2 = none ∧
    (getCell c9p2.2.1 3).condData =
      some { parent := 0, ifThens := [(.truthyC, .int 100)], elseThen := .undef, elseClosure := .undef } ∧
    (getCell c9p2.2.1 3).value = .undef ∧
    ¬ (getCell c9p2.2.1 3).value = .int 55 ∧
    (getCell c9p2.2.1 2).condData =
      some { parent := 0, ifThens := [(.truthyC, .int 100)], elseThen := .int 55, elseClosure := .undef } := by decide

end Dynx
